import Mathlib

/-!
# Verification of the vault credential (auth) mount table

Shallow embedding of `vault/auth.go` from saromanov/vault: the auth table
data model, its lifecycle operations (`enableCredential`, `disableCredential`,
`loadCredentials`, `persistAuth`, `setupCredentials`, `teardownCredentials`)
and the constants they use.  Collaborators (barrier storage, router, backend
factory registry, UUID generation) are modelled as oracle functions bundled
in an environment; the mutable fields of `Core` (the live table pointer, the
barrier contents, the router's mount set) are modelled as an explicit state.
-/

namespace Vault

/-- Embeds the Go constant `coreAuthConfigPath = "core/auth"`. -/
def coreAuthConfigPath : String := "core/auth"

/-- Embeds the Go constant `credentialBarrierPrefix = "auth/"` (the
storage-namespace prefix put before the entry's UUID in barrier views). -/
def credentialBarrierPfx : String := "auth/"

/-- Embeds the Go constant `credentialMountPrefix = "auth/"` (the prefix put
before the entry's name to build router mount paths). -/
def credentialMountPfx : String := "auth/"

/-- Embeds the Go struct `AuthEntry` (fields Name, Type, Description, UUID). -/
structure AuthEntry where
  name : String
  type : String
  description : String
  uuid : String
deriving Repr, DecidableEq

/-- The zero value of `AuthEntry` (all fields are Go strings, zero value ""). -/
def dEntry : AuthEntry := ⟨"", "", "", ""⟩

/-- Embeds the Go struct `AuthTable` (the lock is a concurrency artefact with
no data content; only the `Entries` slice is modelled). -/
structure AuthTable where
  entries : List AuthEntry
deriving Repr, DecidableEq

/-- Embeds `(*AuthEntry).Clone`: a field-for-field copy of the entry. -/
def AuthEntry.cloneE (a : AuthEntry) : AuthEntry :=
  { name := a.name, type := a.type, description := a.description, uuid := a.uuid }

/-- Embeds `(*AuthTable).Clone`: a fresh table holding a clone of each entry. -/
def AuthTable.cloneT (t : AuthTable) : AuthTable :=
  { entries := t.entries.map AuthEntry.cloneE }

@[simp] theorem AuthEntry.cloneE_eq (a : AuthEntry) : a.cloneE = a := rfl

@[simp] theorem AuthTable.cloneT_eq (t : AuthTable) : t.cloneT = t := by
  cases t with
  | mk es =>
    simp only [AuthTable.cloneT, AuthTable.mk.injEq]
    induction es with
    | nil => rfl
    | cons e rest ih => simp [ih]

/-- A JSON value, the codomain of `encoding/json` marshalling as far as this
file needs it (string leaves, arrays, objects as ordered field lists). -/
inductive Json where
  | str (s : String)
  | arr (xs : List Json)
  | obj (fs : List (String × Json))

/-- Embeds `json.Marshal` on `*AuthEntry`: the field keys come from the
struct tags in the source, which are, verbatim, `"name "` (note the trailing
space in the tag on the `Name` field), `"type"`, `"description"`, `"uuid"`. -/
def marshalEntry (e : AuthEntry) : Json :=
  .obj [("name ", .str e.name), ("type", .str e.type),
        ("description", .str e.description), ("uuid", .str e.uuid)]

/-- Embeds `json.Marshal` on `*AuthTable`: one object with the `"entries"`
field (tag on the `Entries` slice), an array of marshalled entries. -/
def marshalAuthTable (t : AuthTable) : Json :=
  .obj [("entries", .arr (t.entries.map marshalEntry))]

/-- Embeds the per-field step of `json.Unmarshal` into an `AuthEntry`: the
keys are the struct tags (`"name "` with its trailing space, `"type"`,
`"description"`, `"uuid"`); an unknown key is skipped without error; a
matching key whose value is not a string is a type error that leaves the
field as it was and is recorded but does not stop decoding — Go's decoder
skips the offending value, completes the rest as best it can, and returns
the first saved error at the end. -/
def applyEntryField (e : AuthEntry) (k : String) (v : Json) : AuthEntry × Bool :=
  if k = "name " then
    match v with
    | .str s => ({ e with name := s }, true)
    | _ => (e, false)
  else if k = "type" then
    match v with
    | .str s => ({ e with type := s }, true)
    | _ => (e, false)
  else if k = "description" then
    match v with
    | .str s => ({ e with description := s }, true)
    | _ => (e, false)
  else if k = "uuid" then
    match v with
    | .str s => ({ e with uuid := s }, true)
    | _ => (e, false)
  else (e, true)

/-- Folds `applyEntryField` over an object's fields in input order,
accumulating the partially decoded entry and whether any field errored
(later duplicate keys overwrite earlier ones, as in Go). -/
def unmarshalEntryLoop : AuthEntry → Bool → List (String × Json) → AuthEntry × Bool
  | e, ok, [] => (e, ok)
  | e, ok, (k, v) :: rest =>
    unmarshalEntryLoop (applyEntryField e k v).1 (ok && (applyEntryField e k v).2) rest

/-- Embeds `json.Unmarshal` of one element of the `Entries` slice: an
object is decoded field by field starting from the freshly allocated zero
entry; a non-object element is a type error that leaves that element at
its zero value while decoding continues with the rest. -/
def unmarshalEntryP : Json → AuthEntry × Bool
  | .obj fs => unmarshalEntryLoop dEntry true fs
  | _ => (dEntry, false)

/-- Decodes the elements of the `"entries"` array in order; every element
occupies its slot even when its own decode errors (Go grows the slice and
saves the error), and the flag records whether every element decoded. -/
def unmarshalEntriesLoop : List AuthEntry → Bool → List Json → List AuthEntry × Bool
  | acc, ok, [] => (acc, ok)
  | acc, ok, x :: rest =>
    unmarshalEntriesLoop (acc ++ [(unmarshalEntryP x).1]) (ok && (unmarshalEntryP x).2) rest

/-- Embeds the per-field step of `json.Unmarshal` into an `AuthTable`:
only the `"entries"` key (the struct tag on the slice) is meaningful; a
non-array value for it is a type error that leaves the slice as it was;
any other key is skipped without error. -/
def applyTableField (t : AuthTable) (k : String) (v : Json) : AuthTable × Bool :=
  if k = "entries" then
    match v with
    | .arr xs =>
      (⟨(unmarshalEntriesLoop [] true xs).1⟩, (unmarshalEntriesLoop [] true xs).2)
    | _ => (t, false)
  else (t, true)

/-- Folds `applyTableField` over the record object's fields in input
order, accumulating the partially decoded table and the error flag. -/
def unmarshalTableLoop : AuthTable → Bool → List (String × Json) → AuthTable × Bool
  | t, ok, [] => (t, ok)
  | t, ok, (k, v) :: rest =>
    unmarshalTableLoop (applyTableField t k v).1 (ok && (applyTableField t k v).2) rest

/-- Embeds `json.Unmarshal(raw, &AuthTable{})` on a syntactically valid
record: decoding starts from the freshly allocated zero table; a
non-object record is a type error that leaves the table untouched (zero
entries); an object is decoded key by key, partially populating the table
even when some value has the wrong type.  The flag is false exactly when
some part of the record failed to decode, in which case the partially
populated table is still left in the target — Go's decoder completes what
it can and returns the first saved error.  (Syntactically invalid bytes
are not representable in the `Json` value type; Go rejects them before
touching the target, which coincides with the zero-table error case.) -/
def unmarshalAuthTableP : Json → AuthTable × Bool
  | .obj fs => unmarshalTableLoop ⟨[]⟩ true fs
  | _ => (⟨[]⟩, false)

/-- The error values produced by `auth.go`, one constructor per `errors.New`
or `fmt.Errorf` site, plus constructors carrying a collaborator's own error
message where the Go code propagates that error verbatim. -/
inductive VaultError where
  /-- "backend name must be specified" -/
  | invalidRequest
  /-- "name already in use" -/
  | nameInUse
  /-- "token credential backend cannot be instantiated" / "... disabled" -/
  | reservedType
  /-- "unknown backend type: %s" from `newCredentialBackend` -/
  | unknownBackendType (t : String)
  /-- an error returned by a registered backend factory itself -/
  | factoryFailed (msg : String)
  /-- "failed to update auth table" -/
  | tableUpdateFailed
  /-- an error returned by `router.Mount` / `router.Unmount`, as-is -/
  | routerFailed (msg : String)
  /-- "no matching backend" -/
  | notFound
  /-- `loadAuthFailed` = "failed to setup auth table" -/
  | loadAuthFailed
  /-- marks the undefined behaviour of calling an operation while `c.auth`
  is nil (the Go code would dereference a nil pointer) -/
  | authAbsent
deriving Repr, DecidableEq

/-- The collaborators of `Core`, as oracle functions: the backend factory
registry, UUID generation, the failure behaviour of the barrier's Get/Put
and of the router's Mount/Unmount.  Backends are opaque and identified by a
string. -/
structure Env where
  /-- `c.credentialBackends`: type tag to factory; the factory may itself
  fail with a message. -/
  backendFactory : String → Option (Except String String)
  /-- `generateUUID`, fed with the number of UUIDs generated so far. -/
  genUUID : Nat → String
  /-- whether `c.barrier.Get` on this key returns an error. -/
  getFails : String → Bool
  /-- whether `c.barrier.Put` of this key/value returns an error. -/
  putFails : String → Json → Bool
  /-- `c.router.Mount backend path`: `none` is success, `some msg` the
  router's error. -/
  mountErr : String → String → Option String
  /-- `c.router.Unmount path`: `none` is success, `some msg` the error. -/
  unmountErr : String → Option String

/-- The mutable state the operations touch: the live table pointer `c.auth`
(nil-able), the barrier contents, the router's mounted (path, backend)
pairs, a log of every `router.Mount` invocation (successful or not), and
the count of UUIDs generated so far. -/
structure World where
  auth : Option AuthTable
  storage : List (String × Json)
  router : List (String × String)
  mountCalls : List (String × String)
  uuidCtr : Nat

/-- Barrier read: first binding of the key in the store. -/
def storeGet (s : List (String × Json)) (k : String) : Option Json :=
  match s with
  | [] => none
  | (k', v) :: rest => if k' = k then some v else storeGet rest k

/-- Barrier write: replace the first binding of the key, or append. -/
def storePut (s : List (String × Json)) (k : String) (v : Json) :
    List (String × Json) :=
  match s with
  | [] => [(k, v)]
  | (k', v') :: rest =>
    if k' = k then (k, v) :: rest else (k', v') :: storePut rest k v

/-- Embeds `Core.newCredentialBackend`: look the type up in the registry;
an absent type is "unknown backend type", otherwise the factory runs. -/
def newCredentialBackend (env : Env) (t : String) : Except VaultError String :=
  match env.backendFactory t with
  | none => .error (.unknownBackendType t)
  | some (.error msg) => .error (.factoryFailed msg)
  | some (.ok b) => .ok b

/-- Embeds `Core.persistAuth`: marshal the table (cannot fail on this type)
and Put it at `coreAuthConfigPath`; `none` models the Put returning an
error (the caller maps it to its own error value). -/
def persistAuth (env : Env) (w : World) (table : AuthTable) : Option World :=
  let raw := marshalAuthTable table
  if env.putFails coreAuthConfigPath raw then none
  else some { w with storage := storePut w.storage coreAuthConfigPath raw }

/-- Embeds `Core.enableCredential`, in source order: empty-name check,
name-in-use check, token-singleton check, backend lookup, UUID generation,
clone-and-append, persist (failure is `tableUpdateFailed` with no table or
router change), swap the live table, then `router.Mount` (whose error is
returned as-is, after the table swap). -/
def enableCredential (env : Env) (w : World) (entry : AuthEntry) :
    Option VaultError × World :=
  match w.auth with
  | none => (some .authAbsent, w)
  | some t =>
    if entry.name = "" then (some .invalidRequest, w)
    else if t.entries.any (fun e => e.name == entry.name) then (some .nameInUse, w)
    else if entry.type = "token" then (some .reservedType, w)
    else
      match newCredentialBackend env entry.type with
      | .error e => (some e, w)
      | .ok b =>
        let e1 : AuthEntry := { entry with uuid := env.genUUID w.uuidCtr }
        let w1 : World := { w with uuidCtr := w.uuidCtr + 1 }
        let newTable : AuthTable := ⟨t.cloneT.entries ++ [e1]⟩
        match persistAuth env w1 newTable with
        | none => (some .tableUpdateFailed, w1)
        | some w2 =>
          let w3 : World := { w2 with auth := some newTable }
          let path := credentialMountPfx ++ entry.name ++ "/"
          let w4 : World := { w3 with mountCalls := w3.mountCalls ++ [(path, b)] }
          match env.mountErr b path with
          | some msg => (some (.routerFailed msg), w4)
          | none => (none, { w4 with router := w4.router ++ [(path, b)] })

/-- Embeds the removal loop of `disableCredential`: find the first entry
with the given name, overwrite it with the last entry and truncate by one
(`Entries[i], Entries[n-1] = Entries[n-1], nil; Entries = Entries[:n-1]`);
`none` when no entry matches. -/
def removeSwap (es : List AuthEntry) (name : String) : Option (List AuthEntry) :=
  match es.findIdx? (fun e => e.name == name) with
  | none => none
  | some i =>
    match es.getLast? with
    | none => none
    | some last => some ((es.set i last).take (es.length - 1))

/-- Embeds `Core.disableCredential`, in source order: token check, clone and
swap-remove, not-found check, persist (failure is `tableUpdateFailed` with
no change), swap the live table, then `router.Unmount` (error as-is). -/
def disableCredential (env : Env) (w : World) (name : String) :
    Option VaultError × World :=
  match w.auth with
  | none => (some .authAbsent, w)
  | some t =>
    if name = "token" then (some .reservedType, w)
    else
      match removeSwap t.cloneT.entries name with
      | none => (some .notFound, w)
      | some es =>
        let newTable : AuthTable := ⟨es⟩
        match persistAuth env w newTable with
        | none => (some .tableUpdateFailed, w)
        | some w2 =>
          let w3 : World := { w2 with auth := some newTable }
          let path := credentialMountPfx ++ name ++ "/"
          match env.unmountErr path with
          | some msg => (some (.routerFailed msg), w3)
          | none => (none, { w3 with router := w3.router.filter (fun pb => pb.1 != path) })

/-- Embeds `defaultAuthTable`: a single token entry with a fresh UUID. -/
def defaultAuthTable (env : Env) (ctr : Nat) : AuthTable :=
  ⟨[{ name := "token", type := "token",
      description := "token based credentials", uuid := env.genUUID ctr }]⟩

/-- Embeds `Core.loadCredentials`: Get the record (read failure is fatal);
if a record is present, point `c.auth` at a fresh table and unmarshal into
it — on decode failure the call is fatal and whatever the decoder
populated into that fresh table stays live; if no record is present and a
live table exists, done; otherwise build and persist the default table
(persist failure is fatal). -/
def loadCredentials (env : Env) (w : World) : Option VaultError × World :=
  if env.getFails coreAuthConfigPath then (some .loadAuthFailed, w)
  else
    match storeGet w.storage coreAuthConfigPath with
    | some raw =>
      if (unmarshalAuthTableP raw).2 then
        (none, { w with auth := some (unmarshalAuthTableP raw).1 })
      else (some .loadAuthFailed, { w with auth := some (unmarshalAuthTableP raw).1 })
    | none =>
      if w.auth.isSome then (none, w)
      else
        let t := defaultAuthTable env w.uuidCtr
        let w1 : World := { w with auth := some t, uuidCtr := w.uuidCtr + 1 }
        match persistAuth env w1 t with
        | none => (some .loadAuthFailed, w1)
        | some w2 => (none, w2)

/-- The loop body of `setupCredentials` over the table's entries: build the
backend (failure is fatal), then Mount it (failure is fatal); every Mount
invocation is logged, and a successful one extends the router. -/
def setupLoop (env : Env) : World → List AuthEntry → Option VaultError × World
  | w, [] => (none, w)
  | w, e :: rest =>
    match newCredentialBackend env e.type with
    | .error _ => (some .loadAuthFailed, w)
    | .ok b =>
      let path := credentialMountPfx ++ e.name ++ "/"
      let w1 : World := { w with mountCalls := w.mountCalls ++ [(path, b)] }
      match env.mountErr b path with
      | some _ => (some .loadAuthFailed, w1)
      | none => setupLoop env { w1 with router := w1.router ++ [(path, b)] } rest

/-- Embeds `Core.setupCredentials`: run the loop over `c.auth.Entries`. -/
def setupCredentials (env : Env) (w : World) : Option VaultError × World :=
  match w.auth with
  | none => (some .authAbsent, w)
  | some t => setupLoop env w t.entries

/-- Embeds `Core.teardownCredentials`: drop the live table reference. -/
def teardownCredentials (w : World) : Option VaultError × World :=
  (none, { w with auth := none })

/-- The keys of a JSON object, in order (empty for non-objects). -/
def jsonKeys : Json → List String
  | .obj fs => fs.map Prod.fst
  | _ => []

/-! ### Concrete fixtures for witnesses and counterexamples -/

/-- The token singleton entry as built by `defaultAuthTable`, with a fixed
uuid, used in concrete states below. -/
def tokenEntry : AuthEntry :=
  ⟨"token", "token", "token based credentials", "uuid-0"⟩

/-- An environment whose collaborators all succeed: every type except
"token" has a registered factory (the backend is identified by its type
string), storage reads and writes succeed, router calls succeed. -/
def okEnv : Env where
  backendFactory := fun t => if t = "token" then none else some (.ok t)
  genUUID := fun n => String.append "uuid-" (toString n)
  getFails := fun _ => false
  putFails := fun _ _ => false
  mountErr := fun _ _ => none
  unmountErr := fun _ => none

/-- Like `okEnv` but every barrier Put fails. -/
def putFailEnv : Env := { okEnv with putFails := fun _ _ => true }

/-- Like `okEnv` but every router Mount and Unmount fails. -/
def routerFailEnv : Env :=
  { okEnv with mountErr := fun _ _ => some "mount refused",
               unmountErr := fun _ => some "unmount refused" }

/-- Like `okEnv` but only the type "typeA" has a registered factory. -/
def onlyAEnv : Env :=
  { okEnv with backendFactory := fun t => if t = "typeA" then some (.ok "bA") else none }

/-- A world holding just the token singleton, with empty storage and
router. -/
def w0 : World := ⟨some ⟨[tokenEntry]⟩, [], [], [], 1⟩

/-- A fresh world: no live table, empty storage, empty router. -/
def wEmpty : World := ⟨none, [], [], [], 0⟩

/-- A world whose stored auth record is an undecodable bare string while a
nonempty live table is set. -/
def w9 : World := ⟨some ⟨[tokenEntry]⟩, [(coreAuthConfigPath, .str "garbage")], [], [], 1⟩

/-- A world whose stored auth record is an object whose "entries" array
holds one non-object element: decoding grows the slice to one (zero
valued) entry before failing. -/
def w9b : World :=
  ⟨some ⟨[tokenEntry]⟩, [(coreAuthConfigPath, .obj [("entries", .arr [.str "x"])])],
   [], [], 1⟩

/-- A world whose live table has two entries, "aa" of type "typeA" and "bb"
of type "typeB", with an empty router. -/
def w2 : World :=
  ⟨some ⟨[⟨"aa", "typeA", "", "u-a"⟩, ⟨"bb", "typeB", "", "u-b"⟩]⟩, [], [], [], 0⟩

/-- Whether one iteration of the `setupCredentials` loop succeeds for an
entry: its factory resolves and succeeds, and the router accepts the mount.
This is the success predicate of `setupLoop`, used to state which prefix of
the table gets mounted. -/
def stepOk (env : Env) (e : AuthEntry) : Bool :=
  match env.backendFactory e.type with
  | some (.ok b) => (env.mountErr b (credentialMountPfx ++ e.name ++ "/")).isNone
  | _ => false

/-- The (path, backend) pair `setupLoop` mounts for an entry whose factory
succeeds (junk backend name otherwise; only used under `stepOk`). -/
def mountFor (env : Env) (e : AuthEntry) : String × String :=
  (credentialMountPfx ++ e.name ++ "/",
   match env.backendFactory e.type with
   | some (.ok b) => b
   | _ => "")

/-! ### Pointer-level model of Clone (for the deep-copy claim)

Go's `AuthTable.Entries` is a slice of pointers (`[]*AuthEntry`); `Clone`
allocates a fresh `AuthEntry` per element.  To state independence under
mutation, pointers are modelled as indices into an allocation heap that
only ever appends. -/

/-- A heap of entry cells; a pointer is an index into `cells`, and every
allocation appends a fresh cell. -/
structure EntryHeap where
  cells : List AuthEntry

/-- Dereference a pointer (out-of-range reads give the zero entry). -/
def heapRead (h : EntryHeap) (i : Nat) : AuthEntry := h.cells.getD i dEntry

/-- Mutate the cell a pointer refers to. -/
def heapWrite (h : EntryHeap) (i : Nat) (e : AuthEntry) : EntryHeap :=
  ⟨h.cells.set i e⟩

/-- Embeds `(*AuthEntry).Clone` at the pointer level: read the source cell,
copy its fields into a freshly allocated cell, return the fresh pointer. -/
def cloneEntryRef (h : EntryHeap) (i : Nat) : EntryHeap × Nat :=
  (⟨h.cells ++ [(heapRead h i).cloneE]⟩, h.cells.length)

/-- Embeds `(*AuthTable).Clone` at the pointer level: the table is its list
of entry pointers, and each entry is cloned into a fresh cell, in order. -/
def cloneRefs (h : EntryHeap) : List Nat → EntryHeap × List Nat
  | [] => (h, [])
  | i :: is =>
    ((cloneRefs (cloneEntryRef h i).1 is).1,
     (cloneEntryRef h i).2 :: (cloneRefs (cloneEntryRef h i).1 is).2)

/-- A concrete two-cell heap for the deep-copy witness. -/
def h8 : EntryHeap := ⟨[⟨"aa", "typeA", "", "u-a"⟩, ⟨"bb", "typeB", "", "u-b"⟩]⟩

/-! ### Helper lemmas -/

theorem storeGet_storePut (s : List (String × Json)) (k : String) (v : Json) :
    storeGet (storePut s k v) k = some v := by
  induction s with
  | nil => simp [storePut, storeGet]
  | cons p rest ih =>
    cases p with
    | mk k' v' =>
      by_cases h : k' = k
      · simp [storePut, storeGet, h]
      · simp [storePut, storeGet, h, ih]

theorem any_name_eq_false {es : List AuthEntry} {nm : String}
    (h : ∀ e ∈ es, e.name ≠ nm) :
    es.any (fun e => e.name == nm) = false := by
  rw [List.any_eq_false]
  intro e he
  simpa using h e he

/-! ### Claim theorems -/

/-- C10: when the storage read succeeds but finds no record while a live
table is already set, `loadCredentials` returns success, keeps the existing
live table unchanged, and neither builds nor persists a default table — the
whole state is returned unchanged. -/
theorem c10_existing_table_kept (env : Env) (w : World) (t : AuthTable)
    (hget : env.getFails coreAuthConfigPath = false)
    (hraw : storeGet w.storage coreAuthConfigPath = none)
    (hauth : w.auth = some t) :
    loadCredentials env w = (none, w) := by
  simp [loadCredentials, hget, hraw, hauth]

/-- Witness for C10 at a concrete environment and world. -/
theorem c10_witness :
    okEnv.getFails coreAuthConfigPath = false ∧
    storeGet w0.storage coreAuthConfigPath = none ∧
    w0.auth = some ⟨[tokenEntry]⟩ ∧
    loadCredentials okEnv w0 = (none, w0) :=
  ⟨rfl, rfl, rfl, c10_existing_table_kept okEnv w0 ⟨[tokenEntry]⟩ rfl rfl rfl⟩

/-- C9 counterexample: at the stored record whose "entries" array holds
the single non-object element "x", decoding fails but has already grown
the Entries slice, so `loadCredentials` returns the fatal error with a
live table of one (zero-valued) entry — refuting the claim that the live
table after a failed decode always has zero entries. -/
theorem c9_counterexample :
    (unmarshalAuthTableP (.obj [("entries", .arr [.str "x"])])).2 = false ∧
    (loadCredentials okEnv w9b).1 = some .loadAuthFailed ∧
    (loadCredentials okEnv w9b).2.auth = some ⟨[dEntry]⟩ ∧
    (AuthTable.mk [dEntry]).entries.length = 1 ∧
    ¬(AuthTable.mk [dEntry]).entries.length = 0 :=
  ⟨rfl, rfl, rfl, rfl, by decide⟩

/-- C9 (amended): when a record exists at the auth configuration key but
its content does not fully deserialize, `loadCredentials` returns the
fatal `loadAuthFailed` error and the live table reference is set to a
freshly allocated table holding exactly the entries the decoder populated
before failing — zero entries when nothing decodes (for instance a
non-object record), but possibly more; it is neither left absent nor
restored to its pre-call value. -/
theorem c9_partial_decode (env : Env) (w : World) (raw : Json)
    (hget : env.getFails coreAuthConfigPath = false)
    (hraw : storeGet w.storage coreAuthConfigPath = some raw)
    (hdec : (unmarshalAuthTableP raw).2 = false) :
    loadCredentials env w =
      (some .loadAuthFailed, { w with auth := some (unmarshalAuthTableP raw).1 }) := by
  simp [loadCredentials, hget, hraw, hdec]

/-- Witness for the amended C9: the pre-call live table is nonempty, the
stored record is a bare string, nothing decodes, and the live table
becomes the fresh zero-entry table. -/
theorem c9_witness :
    okEnv.getFails coreAuthConfigPath = false ∧
    storeGet w9.storage coreAuthConfigPath = some (.str "garbage") ∧
    (unmarshalAuthTableP (.str "garbage")).2 = false ∧
    loadCredentials okEnv w9 =
      (some .loadAuthFailed,
       { w9 with auth := some (unmarshalAuthTableP (.str "garbage")).1 }) :=
  ⟨rfl, rfl, rfl, c9_partial_decode okEnv w9 (.str "garbage") rfl rfl rfl⟩

/-- C5: on a fresh state (no record at the auth configuration key, no live
table) whose barrier accepts the write, `loadCredentials` succeeds, the
live table becomes the default table whose single entry has name "token"
and type "token" with a freshly generated uuid, and that default table is
persisted at the auth configuration key. -/
theorem c5_default_table (env : Env) (w : World)
    (hget : env.getFails coreAuthConfigPath = false)
    (hraw : storeGet w.storage coreAuthConfigPath = none)
    (hauth : w.auth = none)
    (hput : env.putFails coreAuthConfigPath
      (marshalAuthTable (defaultAuthTable env w.uuidCtr)) = false) :
    ∃ w', loadCredentials env w = (none, w') ∧
      w'.auth = some (defaultAuthTable env w.uuidCtr) ∧
      defaultAuthTable env w.uuidCtr =
        ⟨[⟨"token", "token", "token based credentials", env.genUUID w.uuidCtr⟩]⟩ ∧
      storeGet w'.storage coreAuthConfigPath =
        some (marshalAuthTable (defaultAuthTable env w.uuidCtr)) := by
  refine ⟨{ w with auth := some (defaultAuthTable env w.uuidCtr),
                   uuidCtr := w.uuidCtr + 1,
                   storage := storePut w.storage coreAuthConfigPath
                     (marshalAuthTable (defaultAuthTable env w.uuidCtr)) }, ?_, rfl, rfl, ?_⟩
  · simp [loadCredentials, hget, hraw, hauth, persistAuth, hput]
  · exact storeGet_storePut _ _ _

/-- Witness for C5 at the fresh world and the all-succeeding environment. -/
theorem c5_witness :
    okEnv.getFails coreAuthConfigPath = false ∧
    storeGet wEmpty.storage coreAuthConfigPath = none ∧
    wEmpty.auth = none ∧
    okEnv.putFails coreAuthConfigPath
      (marshalAuthTable (defaultAuthTable okEnv wEmpty.uuidCtr)) = false ∧
    ∃ w', loadCredentials okEnv wEmpty = (none, w') ∧
      w'.auth = some (defaultAuthTable okEnv wEmpty.uuidCtr) ∧
      defaultAuthTable okEnv wEmpty.uuidCtr =
        ⟨[⟨"token", "token", "token based credentials", okEnv.genUUID wEmpty.uuidCtr⟩]⟩ ∧
      storeGet w'.storage coreAuthConfigPath =
        some (marshalAuthTable (defaultAuthTable okEnv wEmpty.uuidCtr)) :=
  ⟨rfl, rfl, rfl, rfl, c5_default_table okEnv wEmpty rfl rfl rfl rfl⟩

/-- C1: if `enableCredential` reaches the persistence step (all validations
pass and the backend factory succeeds) and persisting the candidate table
fails, the call returns the `tableUpdateFailed` error ("failed to update
auth table") and the live table, the router, the mount-call log and the
stored bytes are all exactly what they were before the call — the router's
Mount is never invoked. -/
theorem c1_persist_fail_no_effect (env : Env) (w : World) (t : AuthTable)
    (entry : AuthEntry) (b : String)
    (hauth : w.auth = some t)
    (hname : ¬entry.name = "")
    (hdup : ∀ e ∈ t.entries, e.name ≠ entry.name)
    (htype : ¬entry.type = "token")
    (hfac : env.backendFactory entry.type = some (.ok b))
    (hput : env.putFails coreAuthConfigPath
      (marshalAuthTable ⟨t.entries ++ [{ entry with uuid := env.genUUID w.uuidCtr }]⟩) = true) :
    (enableCredential env w entry).1 = some .tableUpdateFailed ∧
    (enableCredential env w entry).2.auth = w.auth ∧
    (enableCredential env w entry).2.router = w.router ∧
    (enableCredential env w entry).2.mountCalls = w.mountCalls ∧
    (enableCredential env w entry).2.storage = w.storage := by
  have hany := any_name_eq_false hdup
  simp [enableCredential, newCredentialBackend, persistAuth, hauth, hname, hany,
        htype, hfac, hput]

/-- Witness for C1: enabling "ldap" in an environment whose barrier rejects
every write. -/
theorem c1_witness :
    w0.auth = some ⟨[tokenEntry]⟩ ∧
    ¬(AuthEntry.mk "ldap" "ldap" "" "").name = "" ∧
    (∀ e ∈ (AuthTable.mk [tokenEntry]).entries, e.name ≠ "ldap") ∧
    ¬(AuthEntry.mk "ldap" "ldap" "" "").type = "token" ∧
    putFailEnv.backendFactory "ldap" = some (.ok "ldap") ∧
    putFailEnv.putFails coreAuthConfigPath
      (marshalAuthTable ⟨[tokenEntry] ++
        [{ AuthEntry.mk "ldap" "ldap" "" "" with uuid := putFailEnv.genUUID w0.uuidCtr }]⟩) = true ∧
    ((enableCredential putFailEnv w0 ⟨"ldap", "ldap", "", ""⟩).1 = some .tableUpdateFailed ∧
     (enableCredential putFailEnv w0 ⟨"ldap", "ldap", "", ""⟩).2.auth = w0.auth ∧
     (enableCredential putFailEnv w0 ⟨"ldap", "ldap", "", ""⟩).2.router = w0.router ∧
     (enableCredential putFailEnv w0 ⟨"ldap", "ldap", "", ""⟩).2.mountCalls = w0.mountCalls ∧
     (enableCredential putFailEnv w0 ⟨"ldap", "ldap", "", ""⟩).2.storage = w0.storage) :=
  ⟨rfl, by decide, by decide, by decide, rfl, rfl,
   c1_persist_fail_no_effect putFailEnv w0 ⟨[tokenEntry]⟩ ⟨"ldap", "ldap", "", ""⟩ "ldap"
     rfl (by decide) (by decide) (by decide) rfl rfl⟩

/-- C4 (amended): an `enableCredential` request whose entry has type
"token" is always rejected and never changes any state; it is rejected with
the `reservedType` error precisely when the earlier checks pass (non-empty
name not already in use); with an empty name it is instead rejected as
`invalidRequest`, and with a name already in use as `nameInUse`, because
those two checks run before the token-singleton check. -/
theorem c4_token_always_rejected (env : Env) (w : World) (t : AuthTable)
    (entry : AuthEntry)
    (hauth : w.auth = some t)
    (htype : entry.type = "token") :
    ((enableCredential env w entry).1.isSome ∧
     (enableCredential env w entry).2 = w) ∧
    (¬entry.name = "" → (∀ e ∈ t.entries, e.name ≠ entry.name) →
      (enableCredential env w entry).1 = some .reservedType) := by
  constructor
  · by_cases hn : entry.name = ""
    · simp [enableCredential, hauth, hn]
    · by_cases hd : t.entries.any (fun e => e.name == entry.name)
      · simp [enableCredential, hauth, hn, hd]
      · simp [enableCredential, hauth, hn, hd, htype]
  · intro hn hdup
    have hany := any_name_eq_false hdup
    simp [enableCredential, hauth, hn, hany, htype]

/-- C4 counterexample: with an empty name and type "token",
`enableCredential` returns `invalidRequest` ("backend name must be
specified"), not `reservedType`; with the already-used name "token" it
returns `nameInUse` — the empty-name and name-in-use checks precede the
token-singleton check, so the claim's "regardless of the entry's name" is
false. -/
theorem c4_counterexample :
    (enableCredential okEnv w0 ⟨"", "token", "", ""⟩).1 = some .invalidRequest ∧
    (enableCredential okEnv w0 ⟨"token", "token", "", ""⟩).1 = some .nameInUse ∧
    VaultError.invalidRequest ≠ VaultError.reservedType ∧
    VaultError.nameInUse ≠ VaultError.reservedType := by
  exact ⟨rfl, by decide, by decide, by decide⟩

/-- Witness for the amended C4 at a concrete token-typed request. -/
theorem c4_witness :
    w0.auth = some ⟨[tokenEntry]⟩ ∧
    (AuthEntry.mk "ldap" "token" "" "").type = "token" ∧
    (((enableCredential okEnv w0 ⟨"ldap", "token", "", ""⟩).1.isSome ∧
      (enableCredential okEnv w0 ⟨"ldap", "token", "", ""⟩).2 = w0) ∧
     (¬(AuthEntry.mk "ldap" "token" "" "").name = "" →
      (∀ e ∈ (AuthTable.mk [tokenEntry]).entries, e.name ≠ "ldap") →
      (enableCredential okEnv w0 ⟨"ldap", "token", "", ""⟩).1 = some .reservedType)) :=
  ⟨rfl, rfl, c4_token_always_rejected okEnv w0 ⟨[tokenEntry]⟩ ⟨"ldap", "token", "", ""⟩ rfl rfl⟩

/-- C6: the persisted record does not use the clean field name "name" — the
struct tag in the source is "name " with a trailing space, so a marshalled
entry's keys are ["name ", "type", "description", "uuid"] and the clean
key "name" is absent; the table record's single key is "entries". -/
theorem c6_trailing_space_in_name_key :
    jsonKeys (marshalEntry ⟨"github", "oauth", "d", "u"⟩) =
      ["name ", "type", "description", "uuid"] ∧
    "name" ∉ jsonKeys (marshalEntry ⟨"github", "oauth", "d", "u"⟩) ∧
    jsonKeys (marshalAuthTable ⟨[⟨"github", "oauth", "d", "u"⟩]⟩) = ["entries"] :=
  ⟨rfl, by decide, rfl⟩

/-- C7 counterexample: the router mount-prefix constant and the barrier
storage-namespace prefix constant are the same string, refuting the claim
that the two constants are not the same string. -/
theorem c7_counterexample : credentialMountPfx = credentialBarrierPfx := rfl

/-- C7 (amended): router paths are built from the mount prefix and barrier
views from the storage-namespace prefix; the source declares them as two
separate constants, but both equal "auth/" — structurally similar, and in
fact identical rather than distinct. -/
theorem c7_same_prefix_constants :
    credentialMountPfx = "auth/" ∧ credentialBarrierPfx = "auth/" :=
  ⟨rfl, rfl⟩

theorem removeSwap_name_not_mem {es : List AuthEntry} {nm : String}
    {es' : List AuthEntry}
    (huniq : es.Pairwise (fun a c => a.name ≠ c.name))
    (h : removeSwap es nm = some es') :
    ∀ e ∈ es', e.name ≠ nm := by
  unfold removeSwap at h
  cases hf : es.findIdx? (fun e => e.name == nm) with
  | none => rw [hf] at h; exact absurd h (by simp)
  | some i =>
    rw [hf] at h
    cases hl : es.getLast? with
    | none => rw [hl] at h; exact absurd h (by simp)
    | some last =>
      rw [hl] at h
      have hres : (es.set i last).take (es.length - 1) = es' := by simpa using h
      obtain ⟨hi, hp, -⟩ := List.findIdx?_eq_some_iff_getElem.mp hf
      have hpi : (es.get ⟨i, hi⟩).name = nm := by simpa using hp
      have hlast : last = es.get ⟨es.length - 1, by omega⟩ := by
        have h2 := List.getLast?_eq_getElem? es
        rw [hl, List.getElem?_eq_getElem (l := es) (by omega)] at h2
        exact Option.some_inj.mp h2
      have hdist : ∀ p q (hp' : p < es.length) (hq : q < es.length), p ≠ q →
          (es.get ⟨p, hp'⟩).name ≠ (es.get ⟨q, hq⟩).name := by
        intro p q hp' hq hpq
        rcases Nat.lt_or_ge p q with hlt | hge
        · exact List.pairwise_iff_getElem.mp huniq p q hp' hq hlt
        · have hqp : q < p := by omega
          exact (List.pairwise_iff_getElem.mp huniq q p hq hp' hqp).symm
      intro e he
      rw [← hres, List.mem_iff_getElem] at he
      obtain ⟨j, hj, hje⟩ := he
      have hj1 : j < es.length - 1 := by
        simp only [List.length_take, List.length_set] at hj
        omega
      have hj2 : j < es.length := by omega
      rw [List.getElem_take, List.getElem_set] at hje
      by_cases hij : i = j
      · rw [if_pos hij] at hje
        rw [← hje, hlast]
        intro hcon
        exact hdist i (es.length - 1) hi (by omega) (by omega) (hpi.trans hcon.symm)
      · rw [if_neg hij] at hje
        rw [← hje]
        intro hcon
        exact hdist j i hj2 hi (fun hh => hij hh.symm) (hcon.trans hpi.symm)

/-- C3: when persistence succeeds but the subsequent router call fails, the
router's error is returned to the caller as-is and the live table stays the
committed candidate: for `enableCredential` the new table still contains
the newly added entry, and for `disableCredential` (on a table with unique
names) the new table no longer contains any entry with the removed name. -/
theorem c3_router_failure_after_commit (env : Env) (w wd : World)
    (t td : AuthTable) (entry : AuthEntry) (b msg nm msgd : String)
    (esd : List AuthEntry)
    (hauth : w.auth = some t)
    (hname : ¬entry.name = "")
    (hdup : ∀ e ∈ t.entries, e.name ≠ entry.name)
    (htype : ¬entry.type = "token")
    (hfac : env.backendFactory entry.type = some (.ok b))
    (hputE : env.putFails coreAuthConfigPath
      (marshalAuthTable ⟨t.entries ++ [{ entry with uuid := env.genUUID w.uuidCtr }]⟩) = false)
    (hmount : env.mountErr b (credentialMountPfx ++ entry.name ++ "/") = some msg)
    (hauthd : wd.auth = some td)
    (hnmd : ¬nm = "token")
    (huniq : td.entries.Pairwise (fun a c => a.name ≠ c.name))
    (hrem : removeSwap td.entries nm = some esd)
    (hputD : env.putFails coreAuthConfigPath (marshalAuthTable ⟨esd⟩) = false)
    (hunm : env.unmountErr (credentialMountPfx ++ nm ++ "/") = some msgd) :
    ((enableCredential env w entry).1 = some (.routerFailed msg) ∧
     (enableCredential env w entry).2.auth =
       some ⟨t.entries ++ [{ entry with uuid := env.genUUID w.uuidCtr }]⟩ ∧
     { entry with uuid := env.genUUID w.uuidCtr } ∈
       t.entries ++ [{ entry with uuid := env.genUUID w.uuidCtr }]) ∧
    ((disableCredential env wd nm).1 = some (.routerFailed msgd) ∧
     (disableCredential env wd nm).2.auth = some ⟨esd⟩ ∧
     ∀ e ∈ esd, e.name ≠ nm) := by
  have hany := any_name_eq_false hdup
  refine ⟨⟨?_, ?_, by simp⟩, ⟨?_, ?_, removeSwap_name_not_mem huniq hrem⟩⟩
  · simp [enableCredential, newCredentialBackend, persistAuth, hauth, hname,
          hany, htype, hfac, hputE, hmount]
  · simp [enableCredential, newCredentialBackend, persistAuth, hauth, hname,
          hany, htype, hfac, hputE, hmount]
  · simp [disableCredential, persistAuth, hauthd, hnmd, hrem, hputD, hunm]
  · simp [disableCredential, persistAuth, hauthd, hnmd, hrem, hputD, hunm]

/-- Witness for C3: enabling "github" and disabling "aa" in an environment
whose router refuses every mount and unmount while storage succeeds. -/
theorem c3_witness :
    w0.auth = some ⟨[tokenEntry]⟩ ∧
    ¬(AuthEntry.mk "github" "github" "" "").name = "" ∧
    (∀ e ∈ (AuthTable.mk [tokenEntry]).entries, e.name ≠ "github") ∧
    ¬(AuthEntry.mk "github" "github" "" "").type = "token" ∧
    routerFailEnv.backendFactory "github" = some (.ok "github") ∧
    routerFailEnv.putFails coreAuthConfigPath
      (marshalAuthTable ⟨[tokenEntry] ++
        [{ AuthEntry.mk "github" "github" "" "" with
             uuid := routerFailEnv.genUUID w0.uuidCtr }]⟩) = false ∧
    routerFailEnv.mountErr "github" (credentialMountPfx ++ "github" ++ "/") =
      some "mount refused" ∧
    w2.auth = some ⟨[⟨"aa", "typeA", "", "u-a"⟩, ⟨"bb", "typeB", "", "u-b"⟩]⟩ ∧
    ¬"aa" = "token" ∧
    (AuthTable.mk [⟨"aa", "typeA", "", "u-a"⟩, ⟨"bb", "typeB", "", "u-b"⟩]).entries.Pairwise
      (fun a c => a.name ≠ c.name) ∧
    removeSwap [⟨"aa", "typeA", "", "u-a"⟩, ⟨"bb", "typeB", "", "u-b"⟩] "aa" =
      some [⟨"bb", "typeB", "", "u-b"⟩] ∧
    routerFailEnv.putFails coreAuthConfigPath
      (marshalAuthTable ⟨[⟨"bb", "typeB", "", "u-b"⟩]⟩) = false ∧
    routerFailEnv.unmountErr (credentialMountPfx ++ "aa" ++ "/") =
      some "unmount refused" ∧
    (((enableCredential routerFailEnv w0 ⟨"github", "github", "", ""⟩).1 =
        some (.routerFailed "mount refused") ∧
      (enableCredential routerFailEnv w0 ⟨"github", "github", "", ""⟩).2.auth =
        some ⟨[tokenEntry] ++
          [{ AuthEntry.mk "github" "github" "" "" with
               uuid := routerFailEnv.genUUID w0.uuidCtr }]⟩ ∧
      { AuthEntry.mk "github" "github" "" "" with
          uuid := routerFailEnv.genUUID w0.uuidCtr } ∈
        [tokenEntry] ++ [{ AuthEntry.mk "github" "github" "" "" with
                             uuid := routerFailEnv.genUUID w0.uuidCtr }]) ∧
     ((disableCredential routerFailEnv w2 "aa").1 =
        some (.routerFailed "unmount refused") ∧
      (disableCredential routerFailEnv w2 "aa").2.auth =
        some ⟨[⟨"bb", "typeB", "", "u-b"⟩]⟩ ∧
      ∀ e ∈ [(⟨"bb", "typeB", "", "u-b"⟩ : AuthEntry)], e.name ≠ "aa")) :=
  ⟨rfl, by decide, by decide, by decide, rfl, rfl, rfl, rfl, by decide, by decide,
   by decide, rfl, rfl,
   c3_router_failure_after_commit routerFailEnv w0 w2 ⟨[tokenEntry]⟩
     ⟨[⟨"aa", "typeA", "", "u-a"⟩, ⟨"bb", "typeB", "", "u-b"⟩]⟩
     ⟨"github", "github", "", ""⟩ "github" "mount refused" "aa" "unmount refused"
     [⟨"bb", "typeB", "", "u-b"⟩]
     rfl (by decide) (by decide) (by decide) rfl rfl rfl rfl (by decide)
     (by decide) (by decide) rfl rfl⟩

theorem setupLoop_fail (env : Env) (es : List AuthEntry) (w : World)
    (hfail : es.any (fun e => !stepOk env e) = true) :
    (setupLoop env w es).1 = some .loadAuthFailed ∧
    (setupLoop env w es).2.auth = w.auth ∧
    (setupLoop env w es).2.storage = w.storage ∧
    (setupLoop env w es).2.router =
      w.router ++ (es.takeWhile (stepOk env)).map (mountFor env) := by
  induction es generalizing w with
  | nil => simp at hfail
  | cons e rest ih =>
    cases hb : env.backendFactory e.type with
    | none =>
      have hso : stepOk env e = false := by simp [stepOk, hb]
      simp [setupLoop, newCredentialBackend, hb, hso]
    | some r =>
      cases r with
      | error m =>
        have hso : stepOk env e = false := by simp [stepOk, hb]
        simp [setupLoop, newCredentialBackend, hb, hso]
      | ok b =>
        cases hm : env.mountErr b (credentialMountPfx ++ e.name ++ "/") with
        | some m =>
          have hso : stepOk env e = false := by simp [stepOk, hb, hm]
          simp [setupLoop, newCredentialBackend, hb, hm, hso]
        | none =>
          have hso : stepOk env e = true := by simp [stepOk, hb, hm]
          have hfail' : rest.any (fun x => !stepOk env x) = true := by
            simpa [hso] using hfail
          obtain ⟨ih1, ih2, ih3, ih4⟩ :=
            ih { w with mountCalls := w.mountCalls ++ [(credentialMountPfx ++ e.name ++ "/", b)],
                        router := w.router ++ [(credentialMountPfx ++ e.name ++ "/", b)] } hfail'
          refine ⟨?_, ?_, ?_, ?_⟩ <;>
            simp [setupLoop, newCredentialBackend, hb, hm, hso, mountFor,
                  ih1, ih2, ih3, ih4]

/-- C2 (amended): if any entry of the live table fails its setup step
(factory resolution or router mount), `setupCredentials` returns the fatal
`loadAuthFailed` error and changes neither the live table nor storage;
the router however keeps the mounts of every entry before the first
failing one (the code does not unmount them), so exactly the successful
prefix of the table is left mounted. -/
theorem c2_first_failure_aborts (env : Env) (w : World) (t : AuthTable)
    (hauth : w.auth = some t)
    (hfail : t.entries.any (fun e => !stepOk env e) = true) :
    (setupCredentials env w).1 = some .loadAuthFailed ∧
    (setupCredentials env w).2.auth = w.auth ∧
    (setupCredentials env w).2.storage = w.storage ∧
    (setupCredentials env w).2.router =
      w.router ++ (t.entries.takeWhile (stepOk env)).map (mountFor env) := by
  simpa [setupCredentials, hauth] using setupLoop_fail env t.entries w hfail

/-- C2 counterexample: on a table whose first entry "aa" has the registered
type "typeA" and whose second entry "bb" has the unregistered type "typeB",
`setupCredentials` returns the fatal `loadAuthFailed` error but the backend
for "aa" IS left mounted in the router — refuting the claim that no backend
from the table is left mounted. -/
theorem c2_counterexample :
    (setupCredentials onlyAEnv w2).1 = some .loadAuthFailed ∧
    (setupCredentials onlyAEnv w2).2.router = [("auth/aa/", "bA")] ∧
    ("auth/aa/", "bA") ∈ (setupCredentials onlyAEnv w2).2.router ∧
    (setupCredentials onlyAEnv w2).2.router ≠ [] := by
  exact ⟨rfl, rfl, by decide, by decide⟩

/-- Witness for the amended C2 on the concrete two-entry table. -/
theorem c2_witness :
    w2.auth = some ⟨[⟨"aa", "typeA", "", "u-a"⟩, ⟨"bb", "typeB", "", "u-b"⟩]⟩ ∧
    (AuthTable.mk [⟨"aa", "typeA", "", "u-a"⟩, ⟨"bb", "typeB", "", "u-b"⟩]).entries.any
      (fun e => !stepOk onlyAEnv e) = true ∧
    ((setupCredentials onlyAEnv w2).1 = some .loadAuthFailed ∧
     (setupCredentials onlyAEnv w2).2.auth = w2.auth ∧
     (setupCredentials onlyAEnv w2).2.storage = w2.storage ∧
     (setupCredentials onlyAEnv w2).2.router =
       w2.router ++
         ((AuthTable.mk [⟨"aa", "typeA", "", "u-a"⟩,
             ⟨"bb", "typeB", "", "u-b"⟩]).entries.takeWhile
           (stepOk onlyAEnv)).map (mountFor onlyAEnv)) :=
  ⟨rfl, by decide,
   c2_first_failure_aborts onlyAEnv w2
     ⟨[⟨"aa", "typeA", "", "u-a"⟩, ⟨"bb", "typeB", "", "u-b"⟩]⟩ rfl (by decide)⟩

theorem heapRead_append_lt (cs ext : List AuthEntry) (i : Nat)
    (hi : i < cs.length) :
    heapRead ⟨cs ++ ext⟩ i = heapRead ⟨cs⟩ i := by
  unfold heapRead
  simp only [List.getD_eq_getElem?_getD]
  rw [List.getElem?_append_left hi]

theorem cloneRefs_eq (h : EntryHeap) (refs : List Nat)
    (hv : ∀ i ∈ refs, i < h.cells.length) :
    cloneRefs h refs =
      (⟨h.cells ++ refs.map (heapRead h)⟩,
       List.range' h.cells.length refs.length) := by
  induction refs generalizing h with
  | nil => simp [cloneRefs, List.range']
  | cons i is ih =>
    have hi : i < h.cells.length := hv i (List.mem_cons_self i is)
    have hstep : cloneEntryRef h i = (⟨h.cells ++ [heapRead h i]⟩, h.cells.length) := by
      simp [cloneEntryRef]
    have hv' : ∀ j ∈ is, j < (⟨h.cells ++ [heapRead h i]⟩ : EntryHeap).cells.length := by
      intro j hj
      have := hv j (List.mem_cons_of_mem i hj)
      simp only [List.length_append, List.length_cons, List.length_nil]
      omega
    have hreads : is.map (heapRead ⟨h.cells ++ [heapRead h i]⟩) = is.map (heapRead h) := by
      apply List.map_congr_left
      intro j hj
      have hjlen := hv j (List.mem_cons_of_mem i hj)
      have := heapRead_append_lt h.cells [heapRead h i] j hjlen
      simpa using this
    rw [cloneRefs, hstep]
    simp only
    rw [ih _ hv']
    simp only [Prod.mk.injEq, EntryHeap.mk.injEq]
    constructor
    · rw [hreads, List.append_assoc, List.singleton_append, List.map_cons]
    · simp only [List.length_append, List.length_cons, List.length_nil, List.length_map]
      rw [List.range'_succ]

/-- C8: cloning a table (modelled at the pointer level: the table is its
list of entry pointers into an allocation heap) yields a pointer list of
the same length whose entries read back field-for-field equal to the
original's at every index, allocated at fresh addresses disjoint from the
original's, leaving every original entry unchanged; and mutating any cloned
entry afterwards leaves every entry of the original table unchanged. -/
theorem c8_clone_deep_copy (h : EntryHeap) (refs : List Nat)
    (hv : ∀ i ∈ refs, i < h.cells.length) :
    ((cloneRefs h refs).2.length = refs.length) ∧
    (∀ k, k < refs.length →
      heapRead (cloneRefs h refs).1 ((cloneRefs h refs).2.getD k 0) =
        heapRead h (refs.getD k 0)) ∧
    (∀ j ∈ (cloneRefs h refs).2, j ∉ refs) ∧
    (∀ i ∈ refs, heapRead (cloneRefs h refs).1 i = heapRead h i) ∧
    (∀ j ∈ (cloneRefs h refs).2, ∀ e : AuthEntry, ∀ i ∈ refs,
      heapRead (heapWrite (cloneRefs h refs).1 j e) i = heapRead h i) := by
  rw [cloneRefs_eq h refs hv]
  refine ⟨by simp, ?_, ?_, ?_, ?_⟩
  · intro k hk
    obtain ⟨v, hvk⟩ : ∃ v, refs[k]? = some v :=
      ⟨refs.get ⟨k, hk⟩, List.getElem?_eq_getElem hk⟩
    have hgd : refs.getD k 0 = v := by
      rw [List.getD_eq_getElem?_getD, hvk]; rfl
    have hrange : (List.range' h.cells.length refs.length).getD k 0 =
        h.cells.length + k := by
      rw [List.getD_eq_getElem?_getD,
          List.getElem?_eq_getElem (by simpa using hk)]
      simp
    rw [hrange, hgd]
    unfold heapRead
    rw [List.getD_eq_getElem?_getD, List.getD_eq_getElem?_getD,
        List.getElem?_append_right (by omega), Nat.add_sub_cancel_left,
        List.getElem?_map, hvk]
    simp
  · intro j hj hmem
    obtain ⟨k, hk, hkj⟩ := List.mem_range'.mp hj
    have := hv j hmem
    omega
  · intro i hi
    exact heapRead_append_lt h.cells (refs.map (heapRead h)) i (hv i hi)
  · intro j hj e i hi
    obtain ⟨k, hk, hkj⟩ := List.mem_range'.mp hj
    have hiL : i < h.cells.length := hv i hi
    unfold heapWrite heapRead
    simp only [List.getD_eq_getElem?_getD]
    rw [List.getElem?_set_ne (by omega), List.getElem?_append_left hiL]

/-- Witness for C8 on a concrete two-cell heap whose table holds pointers
to both cells. -/
theorem c8_witness :
    (∀ i ∈ [0, 1], i < h8.cells.length) ∧
    (((cloneRefs h8 [0, 1]).2.length = [0, 1].length) ∧
     (∀ k, k < [0, 1].length →
       heapRead (cloneRefs h8 [0, 1]).1 ((cloneRefs h8 [0, 1]).2.getD k 0) =
         heapRead h8 ([0, 1].getD k 0)) ∧
     (∀ j ∈ (cloneRefs h8 [0, 1]).2, j ∉ [0, 1]) ∧
     (∀ i ∈ [0, 1], heapRead (cloneRefs h8 [0, 1]).1 i = heapRead h8 i) ∧
     (∀ j ∈ (cloneRefs h8 [0, 1]).2, ∀ e : AuthEntry, ∀ i ∈ [0, 1],
       heapRead (heapWrite (cloneRefs h8 [0, 1]).1 j e) i = heapRead h8 i)) :=
  ⟨by decide, c8_clone_deep_copy h8 [0, 1] (by decide)⟩

end Vault
